import Mathlib

/-!
Verification of the SageAttention SM90 fused attention kernel
(`qk_int8_sv_f8_attn_kernel` and its two host entry points) against its
natural-language specification.

The kernel's control flow, index arithmetic, masking, write-back and the host
validation sequence are embedded shallowly below.  Machine integers that the
source computes in `uint32_t` are modelled as `Nat` with an explicit `% 2^32`
where wrap-around matters.  Floating-point register values are modelled over
`ℚ`; the base-2 exponential / logarithm used by the streaming softmax are kept
as function parameters, since no theorem below depends on their values.
-/

namespace SageAttn

/-- Query-tile height: the `CTA_Q` template constant, fixed to 64 at both launch sites. -/
def CTA_Q : Nat := 64

/-- Key/value-tile height: the `CTA_K` template constant, fixed to 128 at both launch sites. -/
def CTA_K : Nat := 128

/-- Modelled from the spec: `div_ceil`, the ceiling division used by the host wrappers and
the kernel (its definition lives in `utils.cuh`, which is not part of the sources here);
the spec writes it as `ceil(x / y)`. -/
def div_ceil (a b : Nat) : Nat := (a + b - 1) / b

/-- 2^32, the modulus of the kernel's `uint32_t` arithmetic. -/
def U32 : Nat := 2 ^ 32

/-- Number of key/value tile iterations executed by one thread-block, from
`qk_int8_sv_f8_attn_kernel`:
`div_ceil(mask_mode == kCausal ? min(kv_len, (bx+1)*CTA_Q) : kv_len, CTA_K)`. -/
def numIterations (causal : Bool) (kv_len bx : Nat) : Nat :=
  div_ceil (if causal then min kv_len ((bx + 1) * CTA_Q) else kv_len) CTA_K

/-- Per-thread accumulator registers of the kernel: running max `m[num_tiles_q][2]`,
running normalizer `d[num_tiles_q][2]`, output accumulator `RO[num_tiles_q][num_tiles_v][8]`. -/
structure AccumState (ntq ntv : Nat) where
  m : Fin ntq → Fin 2 → ℚ
  d : Fin ntq → Fin 2 → ℚ
  ro : Fin ntq → Fin ntv → Fin 8 → ℚ

/-- The kernel's register initialization (source: the two init loops at kernel entry):
`m = -5000000.0f`, `d = 1.0f`, `RO = 0.0f`. -/
def kernelInitState (ntq ntv : Nat) : AccumState ntq ntv where
  m := fun _ _ => -5000000
  d := fun _ _ => 1
  ro := fun _ _ _ => 0

/-- C7: at kernel entry every running-max register is the finite sentinel `-5000000`,
every running-normalizer register is `1`, and every output accumulator register is `0`. -/
theorem c7_kernel_init (ntq ntv : Nat) (fq : Fin ntq) (j : Fin 2) (fv : Fin ntv) (k : Fin 8) :
    (kernelInitState ntq ntv).m fq j = -5000000 ∧
    (kernelInitState ntq ntv).d fq j = 1 ∧
    (kernelInitState ntq ntv).ro fq fv k = 0 := by
  refine ⟨rfl, rfl, rfl⟩

/-- C3: the key/value tile trip count is `ceil(kv_len/128)` in non-causal mode and
`ceil(min(kv_len, (bx+1)*64)/128)` in causal mode; every causal iteration's tile start
lies below the query tile's end, and every key position that some query row of the tile
may attend to falls inside a traversed tile (in both modes). -/
theorem c3_num_iterations (kv_len bx : Nat) :
    numIterations false kv_len bx = div_ceil kv_len 128 ∧
    numIterations true kv_len bx = div_ceil (min kv_len ((bx + 1) * 64)) 128 ∧
    (∀ i, i < numIterations true kv_len bx → i * CTA_K < min kv_len ((bx + 1) * 64)) ∧
    (∀ kidx, kidx < kv_len → kidx ≤ bx * CTA_Q + (CTA_Q - 1) →
      kidx / CTA_K < numIterations true kv_len bx) ∧
    (∀ kidx, kidx < kv_len → kidx / CTA_K < numIterations false kv_len bx) := by
  refine ⟨rfl, rfl, ?_, ?_, ?_⟩
  · intro i hi
    simp only [numIterations, div_ceil, CTA_K, CTA_Q, eq_self_iff_true, if_true] at hi ⊢
    omega
  · intro kidx h1 h2
    simp only [numIterations, div_ceil, CTA_K, CTA_Q, eq_self_iff_true, if_true] at *
    omega
  · intro kidx h1
    simp only [numIterations, div_ceil, CTA_K, CTA_Q, Bool.false_eq_true, if_false] at *
    omega

/-- Witness for C3 at `kv_len = 300`, `bx = 1`. -/
theorem c3_num_iterations_witness :
    (∀ i, i < numIterations true 300 1 → i * CTA_K < min 300 ((1 + 1) * 64)) ∧
    (120 : Nat) < 300 ∧ (120 : Nat) ≤ 1 * CTA_Q + (CTA_Q - 1) ∧
    120 / CTA_K < numIterations true 300 1 ∧
    299 / CTA_K < numIterations false 300 1 := by
  refine ⟨(c3_num_iterations 300 1).2.2.1, by decide, by decide, ?_, ?_⟩
  · exact (c3_num_iterations 300 1).2.2.2.1 120 (by decide) (by decide)
  · exact (c3_num_iterations 300 1).2.2.2.2 299 (by decide)

/-! ## Key-scale index arithmetic (claim C4)

The kernel reads `K_scale[k_scale_idx + (iter - 1) * k_scale_advance_offset]` in the
pipeline loop (`iter` running from 1) and
`K_scale[k_scale_idx + (num_iterations - 1) * k_scale_advance_offset]` in the epilogue,
all in `uint32_t` arithmetic.  Only the per-warp (= per-block indexing) and per-thread
granularities are reachable from the hosts. -/

/-- `num_block_k = div_ceil(kv_len, CTA_K)` from the kernel's scale-index setup. -/
def numBlockK (kv_len : Nat) : Nat := div_ceil kv_len CTA_K

/-- `k_scale_advance_offset`: 1 for per-block/per-warp K granularity, 4 for per-thread. -/
def kScaleAdvanceOffset (perThread : Bool) : Nat := if perThread then 4 else 1

/-- `k_scale_idx` as computed at kernel entry (uint32 arithmetic).  For per-warp
granularity: `batch_id * (num_qo_heads / num_kv_groups) * num_block_k +
(head_id / num_kv_groups) * num_block_k`; per-thread additionally scales by 4 and adds
`lane_id % 4`. -/
def kScaleIdx (perThread : Bool)
    (batch_id head_id num_qo_heads num_kv_groups kv_len lane_id : Nat) : Nat :=
  let num_block_k := numBlockK kv_len
  if perThread then
    (batch_id * (num_qo_heads / num_kv_groups) * (num_block_k * 4) +
      head_id / num_kv_groups * (num_block_k * 4) + lane_id % 4) % U32
  else
    (batch_id * (num_qo_heads / num_kv_groups) * num_block_k +
      head_id / num_kv_groups * num_block_k) % U32

/-- The `K_scale` index read in pipeline-loop iteration `iter ≥ 1`:
`k_scale_idx + (iter - 1) * k_scale_advance_offset` (uint32). -/
def kScaleLoopAccess (perThread : Bool)
    (batch_id head_id num_qo_heads num_kv_groups kv_len lane_id iter : Nat) : Nat :=
  (kScaleIdx perThread batch_id head_id num_qo_heads num_kv_groups kv_len lane_id +
    (iter - 1) * kScaleAdvanceOffset perThread) % U32

/-- The `K_scale` index read in the epilogue:
`k_scale_idx + (num_iterations - 1) * k_scale_advance_offset`, where the subtraction is
`uint32_t` and wraps around when `num_iterations = 0`. -/
def kScaleEpilogueAccess (perThread : Bool)
    (batch_id head_id num_qo_heads num_kv_groups kv_len lane_id numIter : Nat) : Nat :=
  (kScaleIdx perThread batch_id head_id num_qo_heads num_kv_groups kv_len lane_id +
    (numIter + U32 - 1) % U32 * kScaleAdvanceOffset perThread) % U32

/-- Number of entries of the key-scale array admitted by the host shape check:
`(batch_size, num_kv_heads, div_ceil(kv_len, CTA_K))`, with a further factor 4 in the
innermost axis for per-thread granularity. -/
def kScaleLen (perThread : Bool) (batch_size num_kv_heads kv_len : Nat) : Nat :=
  if perThread then batch_size * num_kv_heads * (numBlockK kv_len * 4)
  else batch_size * num_kv_heads * numBlockK kv_len

lemma numIterations_pos (causal : Bool) (kv_len bx : Nat) (hkv : 1 ≤ kv_len) :
    1 ≤ numIterations causal kv_len bx := by
  cases causal <;>
    simp only [numIterations, div_ceil, CTA_K, CTA_Q, Bool.false_eq_true, if_false,
      eq_self_iff_true, if_true] <;> omega

lemma numIterations_le_numBlockK (causal : Bool) (kv_len bx : Nat) :
    numIterations causal kv_len bx ≤ numBlockK kv_len := by
  cases causal <;>
    simp only [numIterations, numBlockK, div_ceil, CTA_K, CTA_Q, Bool.false_eq_true,
      if_false, eq_self_iff_true, if_true] <;> omega

lemma u32_pred_mod (n : Nat) (h1 : 1 ≤ n) (h2 : n ≤ U32) :
    (n + U32 - 1) % U32 = n - 1 := by
  simp only [U32] at *
  omega

/-- `A * S + extra < bound * S` as soon as `extra < S` and `A < bound`. -/
lemma scale_access_lt (A S extra bound : Nat) (hA : A + 1 ≤ bound) (hextra : extra < S) :
    A * S + extra < bound * S :=
  calc A * S + extra < A * S + S := by omega
    _ = (A + 1) * S := by ring
    _ ≤ bound * S := Nat.mul_le_mul_right S hA

/-- C4, counterexample: with `kv_len = 0` (admitted: no host check rejects an empty key
sequence while `qo_len ≥ 1` launches a grid), the epilogue's unsigned
`(num_iterations - 1)` wraps to `2^32 - 1`, so the single-entry-batch per-warp access
index is `2^32 - 1`, far outside the (empty) key-scale array. -/
theorem c4_epilogue_out_of_bounds :
    numIterations false 0 0 = 0 ∧
    kScaleEpilogueAccess false 0 0 1 1 0 0 (numIterations false 0 0) = 2 ^ 32 - 1 ∧
    kScaleLen false 1 1 0 = 0 ∧
    ¬ kScaleEpilogueAccess false 0 0 1 1 0 0 (numIterations false 0 0) <
        kScaleLen false 1 1 0 := by
  refine ⟨by decide, by decide, by decide, by decide⟩

/-- C4 (amended): for every launch whose `kv_len` is at least 1 — every shape where at
least one key/value tile exists — all `K_scale` accesses, in the pipeline loop and in
the epilogue, in both reachable granularities and both mask modes, stay inside the
key-scale array admitted by the host shape check (assuming that array fits in the
32-bit index space). -/
theorem c4_k_scale_in_bounds (perThread causal : Bool)
    (batch_size num_kv_heads num_kv_groups batch_id head_id lane_id kv_len bx : Nat)
    (hkv : 1 ≤ kv_len) (hg : 0 < num_kv_groups)
    (hb : batch_id < batch_size) (hh : head_id < num_kv_heads * num_kv_groups)
    (hfit : kScaleLen perThread batch_size num_kv_heads kv_len ≤ U32) :
    (∀ iter, 1 ≤ iter → iter < numIterations causal kv_len bx →
      kScaleLoopAccess perThread batch_id head_id (num_kv_heads * num_kv_groups)
          num_kv_groups kv_len lane_id iter <
        kScaleLen perThread batch_size num_kv_heads kv_len) ∧
    kScaleEpilogueAccess perThread batch_id head_id (num_kv_heads * num_kv_groups)
        num_kv_groups kv_len lane_id (numIterations causal kv_len bx) <
      kScaleLen perThread batch_size num_kv_heads kv_len := by
  have hnbk : 1 ≤ numBlockK kv_len := by
    simp only [numBlockK, div_ceil, CTA_K]; omega
  have hH : 0 < num_kv_heads := by
    rcases Nat.eq_zero_or_pos num_kv_heads with h | h
    · simp [h] at hh
    · exact h
  have hhd : head_id / num_kv_groups < num_kv_heads :=
    Nat.div_lt_of_lt_mul (by rw [Nat.mul_comm] at hh; exact hh)
  have hA : batch_id * num_kv_heads + head_id / num_kv_groups + 1 ≤
      batch_size * num_kv_heads := by
    have h1 : batch_id * num_kv_heads + num_kv_heads ≤ batch_size * num_kv_heads := by
      have := Nat.succ_le_of_lt hb
      calc batch_id * num_kv_heads + num_kv_heads = (batch_id + 1) * num_kv_heads := by ring
        _ ≤ batch_size * num_kv_heads := Nat.mul_le_mul_right _ this
    omega
  have hiterle := numIterations_le_numBlockK causal kv_len bx
  have hiterpos := numIterations_pos causal kv_len bx hkv
  -- a common bound for any in-range advance step
  have key : ∀ step lanepart : Nat, step < numIterations causal kv_len bx →
      lanepart < kScaleAdvanceOffset perThread →
      (batch_id * num_kv_heads + head_id / num_kv_groups) *
          (numBlockK kv_len * kScaleAdvanceOffset perThread) +
          (lanepart + step * kScaleAdvanceOffset perThread) <
        kScaleLen perThread batch_size num_kv_heads kv_len := by
    intro step lanepart hstep hlp
    have hextra : lanepart + step * kScaleAdvanceOffset perThread <
        numBlockK kv_len * kScaleAdvanceOffset perThread := by
      have h1 : step * kScaleAdvanceOffset perThread ≤
          (numBlockK kv_len - 1) * kScaleAdvanceOffset perThread :=
        Nat.mul_le_mul_right _ (by omega)
      have h2 : (numBlockK kv_len - 1) * kScaleAdvanceOffset perThread +
          kScaleAdvanceOffset perThread = numBlockK kv_len * kScaleAdvanceOffset perThread := by
        have : numBlockK kv_len - 1 + 1 = numBlockK kv_len := by omega
        calc (numBlockK kv_len - 1) * kScaleAdvanceOffset perThread +
              kScaleAdvanceOffset perThread
            = (numBlockK kv_len - 1 + 1) * kScaleAdvanceOffset perThread := by ring
          _ = numBlockK kv_len * kScaleAdvanceOffset perThread := by rw [this]
      omega
    have := scale_access_lt (batch_id * num_kv_heads + head_id / num_kv_groups)
      (numBlockK kv_len * kScaleAdvanceOffset perThread)
      (lanepart + step * kScaleAdvanceOffset perThread)
      (batch_size * num_kv_heads) hA hextra
    have hlen : kScaleLen perThread batch_size num_kv_heads kv_len =
        batch_size * num_kv_heads * (numBlockK kv_len * kScaleAdvanceOffset perThread) := by
      cases perThread <;> simp [kScaleLen, kScaleAdvanceOffset]
    rw [hlen]
    exact this
  -- rewrite the base index into the `A * S + lanepart` shape
  have hbase : kScaleIdx perThread batch_id head_id (num_kv_heads * num_kv_groups)
      num_kv_groups kv_len lane_id =
      ((batch_id * num_kv_heads + head_id / num_kv_groups) *
        (numBlockK kv_len * kScaleAdvanceOffset perThread) +
        (if perThread then lane_id % 4 else 0)) % U32 := by
    cases perThread <;>
      simp only [kScaleIdx, kScaleAdvanceOffset, Bool.false_eq_true, if_false,
        eq_self_iff_true, if_true, Nat.mul_div_cancel _ hg] <;> ring_nf
  have hlanepart : (if perThread then lane_id % 4 else 0) < kScaleAdvanceOffset perThread := by
    cases perThread
    · simp [kScaleAdvanceOffset]
    · simp only [kScaleAdvanceOffset, eq_self_iff_true, if_true]
      omega
  constructor
  · intro iter h1 h2
    have hk := key (iter - 1) (if perThread then lane_id % 4 else 0) (by omega) hlanepart
    have hlt : kScaleIdx perThread batch_id head_id (num_kv_heads * num_kv_groups)
        num_kv_groups kv_len lane_id ≤
        (batch_id * num_kv_heads + head_id / num_kv_groups) *
          (numBlockK kv_len * kScaleAdvanceOffset perThread) +
          (if perThread then lane_id % 4 else 0) := by
      rw [hbase]; exact Nat.mod_le _ _
    have hfin : kScaleIdx perThread batch_id head_id (num_kv_heads * num_kv_groups)
        num_kv_groups kv_len lane_id + (iter - 1) * kScaleAdvanceOffset perThread <
        kScaleLen perThread batch_size num_kv_heads kv_len := by omega
    calc kScaleLoopAccess perThread batch_id head_id (num_kv_heads * num_kv_groups)
          num_kv_groups kv_len lane_id iter
        ≤ kScaleIdx perThread batch_id head_id (num_kv_heads * num_kv_groups)
            num_kv_groups kv_len lane_id + (iter - 1) * kScaleAdvanceOffset perThread :=
          Nat.mod_le _ _
      _ < kScaleLen perThread batch_size num_kv_heads kv_len := hfin
  · have hu32 : numIterations causal kv_len bx ≤ U32 := by
      have h1 : numBlockK kv_len ≤ kScaleLen perThread batch_size num_kv_heads kv_len := by
        have hS : 1 ≤ batch_size * num_kv_heads := Nat.mul_pos (by omega) hH
        cases perThread <;> simp only [kScaleLen, Bool.false_eq_true, if_false,
          eq_self_iff_true, if_true]
        · calc numBlockK kv_len = 1 * numBlockK kv_len := (Nat.one_mul _).symm
            _ ≤ batch_size * num_kv_heads * numBlockK kv_len := Nat.mul_le_mul_right _ hS
        · calc numBlockK kv_len ≤ numBlockK kv_len * 4 := by omega
            _ = 1 * (numBlockK kv_len * 4) := (Nat.one_mul _).symm
            _ ≤ batch_size * num_kv_heads * (numBlockK kv_len * 4) :=
              Nat.mul_le_mul_right _ hS
      omega
    have hpred := u32_pred_mod (numIterations causal kv_len bx) hiterpos hu32
    have hk := key (numIterations causal kv_len bx - 1)
      (if perThread then lane_id % 4 else 0) (by omega) hlanepart
    have hlt : kScaleIdx perThread batch_id head_id (num_kv_heads * num_kv_groups)
        num_kv_groups kv_len lane_id ≤
        (batch_id * num_kv_heads + head_id / num_kv_groups) *
          (numBlockK kv_len * kScaleAdvanceOffset perThread) +
          (if perThread then lane_id % 4 else 0) := by
      rw [hbase]; exact Nat.mod_le _ _
    have hfin : kScaleIdx perThread batch_id head_id (num_kv_heads * num_kv_groups)
        num_kv_groups kv_len lane_id +
        (numIterations causal kv_len bx - 1) * kScaleAdvanceOffset perThread <
        kScaleLen perThread batch_size num_kv_heads kv_len := by omega
    calc kScaleEpilogueAccess perThread batch_id head_id (num_kv_heads * num_kv_groups)
          num_kv_groups kv_len lane_id (numIterations causal kv_len bx)
        ≤ kScaleIdx perThread batch_id head_id (num_kv_heads * num_kv_groups)
            num_kv_groups kv_len lane_id +
            (numIterations causal kv_len bx + U32 - 1) % U32 *
              kScaleAdvanceOffset perThread := Nat.mod_le _ _
      _ = kScaleIdx perThread batch_id head_id (num_kv_heads * num_kv_groups)
            num_kv_groups kv_len lane_id +
            (numIterations causal kv_len bx - 1) * kScaleAdvanceOffset perThread := by
          rw [hpred]
      _ < kScaleLen perThread batch_size num_kv_heads kv_len := hfin

/-- Witness for the amended C4 at a concrete admitted launch:
per-thread granularity, causal, `batch_size = 2`, `num_kv_heads = 3`, `num_kv_groups = 2`,
`batch_id = 1`, `head_id = 5`, `lane_id = 7`, `kv_len = 300`, `bx = 3`. -/
theorem c4_k_scale_in_bounds_witness :
    (1 ≤ 300 ∧ 0 < 2 ∧ 1 < 2 ∧ 5 < 3 * 2 ∧ kScaleLen true 2 3 300 ≤ U32) ∧
    ((∀ iter, 1 ≤ iter → iter < numIterations true 300 3 →
      kScaleLoopAccess true 1 5 (3 * 2) 2 300 7 iter < kScaleLen true 2 3 300) ∧
    kScaleEpilogueAccess true 1 5 (3 * 2) 2 300 7 (numIterations true 300 3) <
      kScaleLen true 2 3 300) := by
  refine ⟨⟨by decide, by decide, by decide, by decide, ?_⟩, ?_⟩
  · show kScaleLen true 2 3 300 ≤ U32
    simp only [kScaleLen, numBlockK, div_ceil, CTA_K, U32]
    decide
  · exact c4_k_scale_in_bounds true true 2 3 2 1 5 7 300 3 (by decide) (by decide)
      (by decide) (by decide)
      (by simp only [kScaleLen, numBlockK, div_ceil, CTA_K, U32]; decide)

/-! ## Epilogue masking and the online-softmax step (claims C2, C8)

Per-thread register index conventions, from the kernel source: a thread holds score
elements `RS[fq][fk][k]` with `k < 8`; element `k` belongs to thread-local query row
`k % 4 / 2` (row 0 gathers elements 0,1,4,5, row 1 gathers 2,3,6,7, exactly the
grouping of the kernel's own `d`-accumulation loops), and its absolute query/key
positions are the `q_idx` / `k_idx` formulas of the epilogue masking loop. -/

/-- `Q_idx_lane_base = bx * CTA_Q + warp_idx * 16 + lane_id / 4`. -/
def qIdxLaneBase (bx warp lane : Nat) : Nat := bx * CTA_Q + warp * 16 + lane / 4

/-- Absolute query position of score element `(fq, k)`:
`Q_idx_lane_base + fq * 64 + 8 * ((k % 4) / 2)`. -/
def maskQIdx (bx warp lane fq k : Nat) : Nat :=
  qIdxLaneBase bx warp lane + fq * 64 + 8 * (k % 4 / 2)

/-- Absolute key position of score element `(fk, k)` in the epilogue tile:
`(num_iterations - 1) * CTA_K + fk * 16 + 2 * (lane_id % 4) + 8 * (k / 4) + k % 2`. -/
def maskKIdx (numIter fk lane k : Nat) : Nat :=
  (numIter - 1) * CTA_K + fk * 16 + 2 * (lane % 4) + 8 * (k / 4) + k % 2

/-- The epilogue `is_out_of_bounds` predicate: causal mode checks
`k_idx > q_idx || k_idx >= kv_len`, non-causal mode checks `k_idx >= kv_len`. -/
def isOutOfBounds (causal : Bool) (kv_len q_idx k_idx : Nat) : Bool :=
  if causal then decide (k_idx > q_idx) || decide (k_idx ≥ kv_len)
  else decide (k_idx ≥ kv_len)

/-- The `-5000000.0f` masking sentinel. -/
def sentinel : ℚ := -5000000

/-- The epilogue masking loop: each dequantized score element held by thread
`(warp, lane)` is replaced by the sentinel exactly when `is_out_of_bounds` holds for
its positions. -/
def maskScores (causal : Bool) (kv_len numIter bx warp lane : Nat)
    (s : Nat → Nat → Nat → ℚ) : Nat → Nat → Nat → ℚ := fun fq fk k =>
  if isOutOfBounds causal kv_len (maskQIdx bx warp lane fq k) (maskKIdx numIter fk lane k)
  then sentinel else s fq fk k

/-- Register elements of one thread that belong to thread-local row `j` of a score
tile, from the kernel's normalizer accumulation (`d[fq][0]` sums elements 0,1,4,5 and
`d[fq][1]` sums 2,3,6,7 of every `fk`). -/
def rowElems (j : Nat) : List Nat := if j = 0 then [0, 1, 4, 5] else [2, 3, 6, 7]

/-- Thread-local row (0 or 1) of register element `k`. -/
def elemRow (k : Nat) : Nat := k % 4 / 2

/-- All scaled score values of thread-local row `j` across the `ntk` column tiles. -/
def rowScaledScores (ntk : Nat) (s : Nat → Nat → Nat → ℚ) (scale : ℚ) (fq j : Nat) :
    List ℚ :=
  (List.range ntk).flatMap fun fk => (rowElems j).map fun k => s fq fk k * scale

/-- Modelled from the spec: the new running row maximum computed by `update_mdo`
(`attn_utils.cuh` is not under `src/`) — the max of the previous running max and all of
the row's freshly scaled scores (spec §4.4, step 1). -/
def updMax (ntk : Nat) (s : Nat → Nat → Nat → ℚ) (scale : ℚ) (m : Nat → Nat → ℚ)
    (fq j : Nat) : ℚ :=
  (rowScaledScores ntk s scale fq j).foldl max (m fq j)

/-- Modelled from the spec: the probability tile produced by `update_mdo` —
`exp2(score * scale - new_max)` per element, with the base-2 exponential kept as the
parameter `e` (spec §4.4, step 6). -/
def updProbs (e : ℚ → ℚ) (ntk : Nat) (s : Nat → Nat → Nat → ℚ) (scale : ℚ)
    (m : Nat → Nat → ℚ) (fq fk k : Nat) : ℚ :=
  e (s fq fk k * scale - updMax ntk s scale m fq (elemRow k))

/-- Registers produced by one softmax step: new running max `m`, new normalizer `d`
(rescaled and with the new exponentials folded in), the rescaled output accumulator
(before the probability×value matmul result is added), and the probability tile. -/
structure StepResult where
  m : Nat → Nat → ℚ
  d : Nat → Nat → ℚ
  roScaled : Nat → Nat → Nat → ℚ
  probs : Nat → Nat → Nat → ℚ

/-- Modelled from the spec: `update_mdo` (rescale `d` and the output accumulator by
`exp2(m_old - m_new)`, spec §4.4 steps 2–5) followed by the kernel's own per-thread
normalizer accumulation loop (`d[fq][j] += Σ` of the row's probability elements, which
the kernel keeps outside `update_mdo`). -/
def softmaxStep (e : ℚ → ℚ) (ntk : Nat) (s : Nat → Nat → Nat → ℚ) (scale : ℚ)
    (m d : Nat → Nat → ℚ) (ro : Nat → Nat → Nat → ℚ) : StepResult where
  m := updMax ntk s scale m
  d := fun fq j =>
    d fq j * e (m fq j - updMax ntk s scale m fq j) +
      ((List.range ntk).flatMap fun fk =>
        (rowElems j).map fun k => updProbs e ntk s scale m fq fk k).sum
  roScaled := fun fq fv k =>
    ro fq fv k * e (m fq (elemRow k) - updMax ntk s scale m fq (elemRow k))
  probs := updProbs e ntk s scale m

/-- The pipeline-loop body's softmax step: raw int32 scores are left undequantized and
`update_mdo` receives `sm_scale = original_sm_scale * dequant_scale`. -/
def loopBodyStep (e : ℚ → ℚ) (ntk : Nat) (rs : Nat → Nat → Nat → ℚ) (dq orig : ℚ)
    (m d : Nat → Nat → ℚ) (ro : Nat → Nat → Nat → ℚ) : StepResult :=
  softmaxStep e ntk rs (orig * dq) m d ro

/-- The epilogue's softmax step: raw scores are multiplied by `dequant_scale`, masked,
and `update_mdo` receives the original `sm_scale`. -/
def epilogueStep (e : ℚ → ℚ) (ntk : Nat) (causal : Bool)
    (kv_len numIter bx warp lane : Nat) (rs : Nat → Nat → Nat → ℚ) (dq orig : ℚ)
    (m d : Nat → Nat → ℚ) (ro : Nat → Nat → Nat → ℚ) : StepResult :=
  softmaxStep e ntk
    (maskScores causal kv_len numIter bx warp lane fun fq fk k => rs fq fk k * dq)
    orig m d ro

/-- C2: in the epilogue tile, the score element of thread `(warp, lane)` at `(fq, fk, k)`
is replaced by the `-5000000` sentinel exactly when, for its absolute key position
`k_idx` and query position `q_idx`, causal masking has `k_idx > q_idx ∨ k_idx ≥ kv_len`
(non-causal: `k_idx ≥ kv_len`); and the epilogue's online-softmax update consumes the
masked scores, not the raw ones. -/
theorem c2_epilogue_masking (e : ℚ → ℚ) (ntk : Nat) (causal : Bool)
    (kv_len numIter bx warp lane fq fk k : Nat) (s rs : Nat → Nat → Nat → ℚ)
    (dq orig : ℚ) (m d : Nat → Nat → ℚ) (ro : Nat → Nat → Nat → ℚ) :
    (maskScores true kv_len numIter bx warp lane s fq fk k =
      if maskQIdx bx warp lane fq k < maskKIdx numIter fk lane k ∨
          kv_len ≤ maskKIdx numIter fk lane k
      then sentinel else s fq fk k) ∧
    (maskScores false kv_len numIter bx warp lane s fq fk k =
      if kv_len ≤ maskKIdx numIter fk lane k then sentinel else s fq fk k) ∧
    epilogueStep e ntk causal kv_len numIter bx warp lane rs dq orig m d ro =
      softmaxStep e ntk
        (maskScores causal kv_len numIter bx warp lane fun a b c => rs a b c * dq)
        orig m d ro := by
  refine ⟨?_, ?_, rfl⟩
  · simp only [maskScores]
    refine if_congr ?_ rfl rfl
    simp [isOutOfBounds]
  · simp only [maskScores]
    refine if_congr ?_ rfl rfl
    simp [isOutOfBounds]

lemma mem_rowElems_lt (j k : Nat) (hk : k ∈ rowElems j) : k < 8 := by
  unfold rowElems at hk
  split at hk <;> simp at hk <;> omega

lemma rowScaledScores_mask_free (ntk : Nat) (causal : Bool)
    (kv_len numIter bx warp lane fq : Nat) (rs : Nat → Nat → Nat → ℚ) (dq orig : ℚ)
    (hnomask : ∀ fk k, fk < ntk → k < 8 →
      isOutOfBounds causal kv_len (maskQIdx bx warp lane fq k)
        (maskKIdx numIter fk lane k) = false)
    (j : Nat) :
    rowScaledScores ntk
        (maskScores causal kv_len numIter bx warp lane fun a b c => rs a b c * dq)
        orig fq j =
      rowScaledScores ntk rs (orig * dq) fq j := by
  unfold rowScaledScores
  refine List.flatMap_congr fun fk hfk => ?_
  refine List.map_congr_left fun k hk => ?_
  have hfk' : fk < ntk := List.mem_range.mp hfk
  have hk' : k < 8 := mem_rowElems_lt j k hk
  simp only [maskScores, hnomask fk k hfk' hk', Bool.false_eq_true, if_false]
  ring

/-- C8: on an unmasked epilogue tile, the epilogue's score/update path (dequantize the
raw scores, pass the original softmax scale) and the pipeline-loop body's path (raw
scores, dequant scale folded into the softmax scale) produce identical softmax states:
the same new running max, normalizer, rescaled accumulator, and probability tile. -/
theorem c8_epilogue_matches_loop_body (e : ℚ → ℚ) (ntk : Nat) (causal : Bool)
    (kv_len numIter bx warp lane fq : Nat) (rs : Nat → Nat → Nat → ℚ) (dq orig : ℚ)
    (m d : Nat → Nat → ℚ) (ro : Nat → Nat → Nat → ℚ)
    (hnomask : ∀ fk k, fk < ntk → k < 8 →
      isOutOfBounds causal kv_len (maskQIdx bx warp lane fq k)
        (maskKIdx numIter fk lane k) = false) :
    (∀ j, (epilogueStep e ntk causal kv_len numIter bx warp lane rs dq orig m d ro).m fq j =
      (loopBodyStep e ntk rs dq orig m d ro).m fq j) ∧
    (∀ j, (epilogueStep e ntk causal kv_len numIter bx warp lane rs dq orig m d ro).d fq j =
      (loopBodyStep e ntk rs dq orig m d ro).d fq j) ∧
    (∀ fv k,
      (epilogueStep e ntk causal kv_len numIter bx warp lane rs dq orig m d ro).roScaled fq fv k =
      (loopBodyStep e ntk rs dq orig m d ro).roScaled fq fv k) ∧
    (∀ fk k, fk < ntk → k < 8 →
      (epilogueStep e ntk causal kv_len numIter bx warp lane rs dq orig m d ro).probs fq fk k =
      (loopBodyStep e ntk rs dq orig m d ro).probs fq fk k) := by
  have hmax : ∀ j,
      updMax ntk (maskScores causal kv_len numIter bx warp lane fun a b c => rs a b c * dq)
        orig m fq j = updMax ntk rs (orig * dq) m fq j := by
    intro j
    unfold updMax
    rw [rowScaledScores_mask_free ntk causal kv_len numIter bx warp lane fq rs dq orig
      hnomask j]
  have hprobs : ∀ fk k, fk < ntk → k < 8 →
      updProbs e ntk (maskScores causal kv_len numIter bx warp lane fun a b c => rs a b c * dq)
        orig m fq fk k = updProbs e ntk rs (orig * dq) m fq fk k := by
    intro fk k hfk hk
    unfold updProbs
    rw [hmax (elemRow k)]
    simp only [maskScores, hnomask fk k hfk hk, Bool.false_eq_true, if_false]
    ring_nf
  refine ⟨?_, ?_, ?_, ?_⟩
  · intro j
    exact hmax j
  · intro j
    show _ * e (m fq j - _) + _ = _ * e (m fq j - _) + _
    rw [hmax j]
    congr 1
    refine congrArg List.sum (List.flatMap_congr fun fk hfk => ?_)
    refine List.map_congr_left fun k hk => ?_
    exact hprobs fk k (List.mem_range.mp hfk) (mem_rowElems_lt j k hk)
  · intro fv k
    show ro fq fv k * e (m fq (elemRow k) - _) = ro fq fv k * e (m fq (elemRow k) - _)
    rw [hmax (elemRow k)]
  · intro fk k hfk hk
    exact hprobs fk k hfk hk

/-- Witness for C8: a fully in-bounds epilogue tile — non-causal, `kv_len = 128`,
`numIter = 1`, `ntk = 8`, thread `(warp, lane) = (0, 0)`, `fq = 0` — where no element
is masked, instantiated with `e = id`, `rs = 1`, `dq = orig = 1`, zero state. -/
theorem c8_epilogue_matches_loop_body_witness :
    (∀ fk < 8, ∀ k < 8,
      isOutOfBounds false 128 (maskQIdx 0 0 0 0 k) (maskKIdx 1 fk 0 k) = false) ∧
    (∀ j, (epilogueStep id 8 false 128 1 0 0 0 (fun _ _ _ => 1) 1 1 (fun _ _ => 0)
        (fun _ _ => 0) (fun _ _ _ => 0)).m 0 j =
      (loopBodyStep id 8 (fun _ _ _ => 1) 1 1 (fun _ _ => 0) (fun _ _ => 0)
        (fun _ _ _ => 0)).m 0 j) := by
  have h : ∀ fk < 8, ∀ k < 8,
      isOutOfBounds false 128 (maskQIdx 0 0 0 0 k) (maskKIdx 1 fk 0 k) = false := by
    decide
  exact ⟨h, (c8_epilogue_matches_loop_body id 8 false 128 1 0 0 0 0 (fun _ _ _ => 1) 1 1
    (fun _ _ => 0) (fun _ _ => 0) (fun _ _ _ => 0)
    (fun fk k hfk hk => h fk hfk k hk)).1⟩

/-! ## Output / log-sum-exp write-back (claims C5, C6, C10) -/

/-- Head-dimension columns written by a thread with lane id `lane`: for each
`fv < head_dim / 16`, the two element pairs at byte offsets `fv*16 + (lane%4)*2` and
`fv*16 + 8 + (lane%4)*2` of the row (each a `half2`/`bfloat162` store of two
consecutive elements). -/
def threadWriteCols (lane head_dim : Nat) : List Nat :=
  (List.range (head_dim / 16)).flatMap fun fv =>
    [fv * 16 + lane % 4 * 2, fv * 16 + lane % 4 * 2 + 1,
     fv * 16 + 8 + lane % 4 * 2, fv * 16 + 8 + lane % 4 * 2 + 1]

/-- Output rows written by one thread (`num_tiles_q = CTA_Q / 64 = 1` at both launch
sites, so only `fq = 0` exists): row `Q_idx_lane_base` under the guard
`Q_idx_lane_base < qo_len`, and row `Q_idx_lane_base + 8` under the guard
`Q_idx_lane_base + 8 < qo_len`. -/
def threadWriteRows (bx warp lane qo_len : Nat) : List Nat :=
  (if qIdxLaneBase bx warp lane < qo_len then [qIdxLaneBase bx warp lane] else []) ++
  (if qIdxLaneBase bx warp lane + 8 < qo_len then [qIdxLaneBase bx warp lane + 8] else [])

/-- One thread's output write-back, as a transform of the logical (row, column) output
slice of its (batch, head): guarded elements receive the thread's register values,
everything else keeps the caller's pre-set contents. -/
def threadWriteback (bx warp lane qo_len head_dim : Nat) (newVal pre : Nat → Nat → ℚ) :
    Nat → Nat → ℚ := fun r c =>
  if r ∈ threadWriteRows bx warp lane qo_len ∧ c ∈ threadWriteCols lane head_dim
  then newVal r c else pre r c

lemma mem_threadWriteRows (bx warp lane qo_len r : Nat)
    (h : r ∈ threadWriteRows bx warp lane qo_len) :
    (r = qIdxLaneBase bx warp lane ∨ r = qIdxLaneBase bx warp lane + 8) ∧ r < qo_len := by
  unfold threadWriteRows at h
  rw [List.mem_append] at h
  rcases h with h | h <;> split at h <;> simp at h <;> omega

/-- C5: a thread's output write-back touches only rows strictly below `qo_len`; every
element of a row at index `qo_len` or beyond keeps the value the caller pre-set. -/
theorem c5_qo_len_boundary (bx warp lane qo_len head_dim : Nat)
    (newVal pre : Nat → Nat → ℚ) (r : Nat) (hr : qo_len ≤ r) :
    (∀ row ∈ threadWriteRows bx warp lane qo_len, row < qo_len) ∧
    (∀ c, threadWriteback bx warp lane qo_len head_dim newVal pre r c = pre r c) := by
  constructor
  · intro row hrow
    exact (mem_threadWriteRows bx warp lane qo_len row hrow).2
  · intro c
    unfold threadWriteback
    rw [if_neg]
    rintro ⟨hrow, -⟩
    have := (mem_threadWriteRows bx warp lane qo_len r hrow).2
    omega

/-- Witness for C5 at `qo_len = 70` (not a multiple of 64), `bx = 1`, row 70. -/
theorem c5_qo_len_boundary_witness :
    (70 : Nat) ≤ 70 ∧
    ((∀ row ∈ threadWriteRows 1 0 0 70, row < 70) ∧
     (∀ c, threadWriteback 1 0 0 70 64 (fun _ _ => 5) (fun _ _ => 3) 70 c =
       (fun _ _ => (3 : ℚ)) 70 c)) :=
  ⟨le_refl 70, c5_qo_len_boundary 1 0 0 70 64 (fun _ _ => 5) (fun _ _ => 3) 70 (le_refl 70)⟩

/-! ### Block-level write sets and schedule independence (claim C10) -/

/-- Logical coordinates of one output element: (batch, head, sequence row, column). -/
structure OCoord where
  b : Nat
  h : Nat
  r : Nat
  c : Nat

/-- Logical coordinates of one log-sum-exp entry: (batch, head, sequence row). -/
structure LseCoord where
  b : Nat
  h : Nat
  r : Nat

/-- One thread-block of the launch grid `(div_ceil(qo_len, CTA_Q), num_qo_heads,
batch_size)`: `bz = blockIdx.z` (batch), `hy = blockIdx.y` (head), `bxi = blockIdx.x`
(query tile). -/
structure BlockId where
  bz : Nat
  hy : Nat
  bxi : Nat
deriving DecidableEq

/-- Whether block `blk` writes output element `a`: some of its 128 threads writes row
`a.r`, column `a.c`, of the block's own (batch, head) slice. -/
def blockWritesO (qo_len head_dim : Nat) (blk : BlockId) (a : OCoord) : Bool :=
  decide (a.b = blk.bz) && decide (a.h = blk.hy) &&
    ((List.range 4).any fun warp => (List.range 32).any fun lane =>
      decide (a.r ∈ threadWriteRows blk.bxi warp lane qo_len) &&
      decide (a.c ∈ threadWriteCols lane head_dim))

/-- `lse_idx = bx * CTA_Q + lane_id / 4 + 8 * (lane_id % 4) + 16 * warp_idx`. -/
def lseIdx (bx warp lane : Nat) : Nat := bx * CTA_Q + lane / 4 + 8 * (lane % 4) + 16 * warp

/-- Whether block `blk` writes log-sum-exp entry `a`: only when `return_lse` is set,
by a thread with `lane % 4 < 2` whose `lse_idx` is inside `qo_len`. -/
def blockWritesLse (returnLse : Bool) (qo_len : Nat) (blk : BlockId) (a : LseCoord) : Bool :=
  returnLse && decide (a.b = blk.bz) && decide (a.h = blk.hy) &&
    ((List.range 4).any fun warp => (List.range 32).any fun lane =>
      decide (lseIdx blk.bxi warp lane < qo_len) && decide (lane % 4 < 2) &&
      decide (a.r = lseIdx blk.bxi warp lane))

lemma blockWritesO_determines (qo_len head_dim : Nat) (blk : BlockId) (a : OCoord)
    (h : blockWritesO qo_len head_dim blk a = true) :
    blk.bz = a.b ∧ blk.hy = a.h ∧ blk.bxi = a.r / 64 := by
  unfold blockWritesO at h
  simp only [Bool.and_eq_true, List.any_eq_true, List.mem_range, decide_eq_true_eq] at h
  obtain ⟨⟨hb, hh⟩, warp, hwarp, lane, hlane, hrow, -⟩ := h
  have hr := mem_threadWriteRows blk.bxi warp lane qo_len a.r hrow
  refine ⟨hb.symm, hh.symm, ?_⟩
  unfold qIdxLaneBase CTA_Q at hr
  omega

lemma blockWritesLse_determines (returnLse : Bool) (qo_len : Nat) (blk : BlockId)
    (a : LseCoord) (h : blockWritesLse returnLse qo_len blk a = true) :
    blk.bz = a.b ∧ blk.hy = a.h ∧ blk.bxi = a.r / 64 := by
  unfold blockWritesLse at h
  simp only [Bool.and_eq_true, List.any_eq_true, List.mem_range, decide_eq_true_eq] at h
  obtain ⟨⟨⟨-, hb⟩, hh⟩, warp, hwarp, lane, hlane, ⟨-, hl2⟩, hr⟩ := h
  refine ⟨hb.symm, hh.symm, ?_⟩
  unfold lseIdx CTA_Q at hr
  omega

/-- Global device memory touched by the kernel grid: the output tensor and the optional
log-sum-exp tensor, at logical coordinates. -/
structure DeviceMem where
  o : OCoord → ℚ
  lse : LseCoord → ℚ

/-- Execution of one thread-block: every output / lse element the block covers receives
a value that depends only on the launch inputs and the block id (`oVal`, `lseVal`);
everything else is left untouched. -/
def applyBlock (qo_len head_dim : Nat) (returnLse : Bool)
    (oVal : BlockId → OCoord → ℚ) (lseVal : BlockId → LseCoord → ℚ)
    (blk : BlockId) (mem : DeviceMem) : DeviceMem where
  o := fun a => if blockWritesO qo_len head_dim blk a then oVal blk a else mem.o a
  lse := fun a => if blockWritesLse returnLse qo_len blk a then lseVal blk a else mem.lse a

lemma applyBlock_comm (qo_len head_dim : Nat) (returnLse : Bool)
    (oVal : BlockId → OCoord → ℚ) (lseVal : BlockId → LseCoord → ℚ)
    (b1 b2 : BlockId) (mem : DeviceMem) :
    applyBlock qo_len head_dim returnLse oVal lseVal b1
        (applyBlock qo_len head_dim returnLse oVal lseVal b2 mem) =
      applyBlock qo_len head_dim returnLse oVal lseVal b2
        (applyBlock qo_len head_dim returnLse oVal lseVal b1 mem) := by
  rcases eq_or_ne b1 b2 with rfl | hne
  · rfl
  · unfold applyBlock
    refine congrArg₂ DeviceMem.mk ?_ ?_ <;> funext a <;> dsimp only
    · rcases h1 : blockWritesO qo_len head_dim b1 a with _ | _ <;>
        rcases h2 : blockWritesO qo_len head_dim b2 a with _ | _ <;> simp [h1, h2]
      obtain ⟨e1, e2, e3⟩ := blockWritesO_determines qo_len head_dim b1 a h1
      obtain ⟨f1, f2, f3⟩ := blockWritesO_determines qo_len head_dim b2 a h2
      cases b1
      cases b2
      simp_all
    · rcases h1 : blockWritesLse returnLse qo_len b1 a with _ | _ <;>
        rcases h2 : blockWritesLse returnLse qo_len b2 a with _ | _ <;> simp [h1, h2]
      obtain ⟨e1, e2, e3⟩ := blockWritesLse_determines returnLse qo_len b1 a h1
      obtain ⟨f1, f2, f3⟩ := blockWritesLse_determines returnLse qo_len b2 a h2
      cases b1
      cases b2
      simp_all

/-- C10: no output element (and no lse entry) is covered by two distinct thread-blocks,
and consequently running the grid's blocks in any two schedules (any two permutations
of the block list), with the per-block results being the same function of the inputs,
produces identical device memory — the kernel is deterministic up to block scheduling. -/
theorem c10_schedule_independence (qo_len head_dim : Nat) (returnLse : Bool)
    (oVal : BlockId → OCoord → ℚ) (lseVal : BlockId → LseCoord → ℚ)
    (order1 order2 : List BlockId) (hperm : order1.Perm order2) (mem : DeviceMem) :
    (∀ a b1 b2, blockWritesO qo_len head_dim b1 a = true →
      blockWritesO qo_len head_dim b2 a = true → b1 = b2) ∧
    (∀ a b1 b2, blockWritesLse returnLse qo_len b1 a = true →
      blockWritesLse returnLse qo_len b2 a = true → b1 = b2) ∧
    order1.foldl (fun m blk => applyBlock qo_len head_dim returnLse oVal lseVal blk m) mem =
      order2.foldl (fun m blk => applyBlock qo_len head_dim returnLse oVal lseVal blk m) mem := by
  refine ⟨?_, ?_, ?_⟩
  · intro a b1 b2 h1 h2
    obtain ⟨e1, e2, e3⟩ := blockWritesO_determines qo_len head_dim b1 a h1
    obtain ⟨f1, f2, f3⟩ := blockWritesO_determines qo_len head_dim b2 a h2
    cases b1
    cases b2
    simp_all
  · intro a b1 b2 h1 h2
    obtain ⟨e1, e2, e3⟩ := blockWritesLse_determines returnLse qo_len b1 a h1
    obtain ⟨f1, f2, f3⟩ := blockWritesLse_determines returnLse qo_len b2 a h2
    cases b1
    cases b2
    simp_all
  · exact hperm.foldl_eq' (fun x _ y _ z =>
      applyBlock_comm qo_len head_dim returnLse oVal lseVal y x z) mem

/-- Witness for C10 at a two-block grid run in both orders. -/
theorem c10_schedule_independence_witness :
    ([⟨0, 0, 0⟩, ⟨0, 0, 1⟩] : List BlockId).Perm [⟨0, 0, 1⟩, ⟨0, 0, 0⟩] ∧
    ([⟨0, 0, 0⟩, ⟨0, 0, 1⟩] : List BlockId).foldl
        (fun m blk => applyBlock 128 64 true (fun _ _ => 1) (fun _ _ => 2) blk m)
        ⟨fun _ => 0, fun _ => 0⟩ =
      ([⟨0, 0, 1⟩, ⟨0, 0, 0⟩] : List BlockId).foldl
        (fun m blk => applyBlock 128 64 true (fun _ _ => 1) (fun _ _ => 2) blk m)
        ⟨fun _ => 0, fun _ => 0⟩ := by
  have hp : ([⟨0, 0, 0⟩, ⟨0, 0, 1⟩] : List BlockId).Perm [⟨0, 0, 1⟩, ⟨0, 0, 0⟩] :=
    List.Perm.swap _ _ _
  exact ⟨hp, (c10_schedule_independence 128 64 true (fun _ _ => 1) (fun _ _ => 2)
    [⟨0, 0, 0⟩, ⟨0, 0, 1⟩] [⟨0, 0, 1⟩, ⟨0, 0, 0⟩] hp ⟨fun _ => 0, fun _ => 0⟩).2.2⟩

/-! ## Host-side validation and launch (claims C9, C6)

The two entry points `qk_int8_sv_f8_accum_f32_attn_inst_buf` and
`qk_int8_sv_f8_accum_f32_fuse_v_scale_attn_inst_buf` run the same validation sequence
(the fused one additionally validates `value_scale`) and then dispatch/launch. -/

/-- Element types distinguished by the host checks. -/
inductive DType
  | int8
  | float8e4m3
  | float32
  | float16
  | bfloat16
  | other
deriving DecidableEq

/-- The host-visible metadata of one tensor argument. -/
structure TensorMeta where
  isCuda : Bool
  dtype : DType
  sizes : List Nat
  lastDimContiguous : Bool
  contiguous : Bool

/-- Errors a host entry point can raise before launching. -/
inductive HostError
  /-- a `CHECK_CUDA` / `CHECK_*CONTIGUOUS` / `CHECK_DTYPE` / `CHECK_DIMS` /
  `CHECK_SHAPE` macro failure -/
  | checkFailed
  /-- the explicit `std::invalid_argument` throw for the grouped-query head-count ratio -/
  | headsNotDivisible (num_qo_heads num_kv_heads : Nat)
  /-- a dispatch failure (unsupported head dimension, granularity, or output dtype) -/
  | unsupported
deriving DecidableEq

/-- What a successful call performs: grid dimensions of the kernel launch and the shape
of the lse tensor it returns. -/
structure Launch where
  gridX : Nat
  gridY : Nat
  gridZ : Nat
  lseShape : List Nat
deriving DecidableEq

/-- `t.size(i)`. -/
def sizeAt (t : TensorMeta) (i : Nat) : Nat := t.sizes.getD i 0

/-- The `CHECK_CUDA` / contiguity / dtype / dims prologue shared by both entry points. -/
def basicChecksOk (query key value output query_scale key_scale : TensorMeta) : Bool :=
  query.isCuda && key.isCuda && value.isCuda && output.isCuda &&
  query_scale.isCuda && key_scale.isCuda &&
  query.lastDimContiguous && key.lastDimContiguous &&
  value.lastDimContiguous && output.lastDimContiguous &&
  query_scale.contiguous && key_scale.contiguous &&
  decide (query.dtype = DType.int8) && decide (key.dtype = DType.int8) &&
  decide (value.dtype = DType.float8e4m3) &&
  decide (query_scale.dtype = DType.float32) && decide (key_scale.dtype = DType.float32) &&
  decide (query.sizes.length = 4) && decide (key.sizes.length = 4) &&
  decide (value.sizes.length = 4) && decide (output.sizes.length = 4) &&
  decide (query_scale.sizes.length = 3) && decide (key_scale.sizes.length = 3)

/-- `qo_len`: `query.size(1)` under layout 0, `query.size(2)` otherwise. -/
def hostQoLen (tensor_layout : Nat) (query : TensorMeta) : Nat :=
  if tensor_layout = 0 then sizeAt query 1 else sizeAt query 2

/-- `kv_len`: `key.size(1)` under layout 0, `key.size(2)` otherwise. -/
def hostKvLen (tensor_layout : Nat) (key : TensorMeta) : Nat :=
  if tensor_layout = 0 then sizeAt key 1 else sizeAt key 2

/-- `num_qo_heads`: `query.size(2)` under layout 0, `query.size(1)` otherwise. -/
def hostNumQoHeads (tensor_layout : Nat) (query : TensorMeta) : Nat :=
  if tensor_layout = 0 then sizeAt query 2 else sizeAt query 1

/-- `num_kv_heads`: `key.size(2)` under layout 0, `key.size(1)` otherwise. -/
def hostNumKvHeads (tensor_layout : Nat) (key : TensorMeta) : Nat :=
  if tensor_layout = 0 then sizeAt key 2 else sizeAt key 1

/-- The two `CHECK_SHAPE` calls of the layout branch (key and output). -/
def shapeChecksOk (tensor_layout : Nat) (query key output : TensorMeta) : Prop :=
  (if tensor_layout = 0
    then key.sizes = [sizeAt query 0, hostKvLen tensor_layout key,
      hostNumKvHeads tensor_layout key, sizeAt query 3]
    else key.sizes = [sizeAt query 0, hostNumKvHeads tensor_layout key,
      hostKvLen tensor_layout key, sizeAt query 3]) ∧
  (if tensor_layout = 0
    then output.sizes = [sizeAt query 0, hostQoLen tensor_layout query,
      hostNumQoHeads tensor_layout query, sizeAt query 3]
    else output.sizes = [sizeAt query 0, hostNumQoHeads tensor_layout query,
      hostQoLen tensor_layout query, sizeAt query 3])

instance (tensor_layout : Nat) (query key output : TensorMeta) :
    Decidable (shapeChecksOk tensor_layout query key output) := by
  unfold shapeChecksOk
  infer_instance

/-- Modelled from the spec: the dispatch-table admissibility (`dispatch_utils.h` is not
under `src/`) — head_dim 64 or 128, `qk_quant_gran` per-warp (2) or per-thread (3),
output dtype half or bfloat16; every other value fails at dispatch before launch. -/
def dispatchOk (head_dim qk_quant_gran : Nat) (output : TensorMeta) : Prop :=
  (head_dim = 64 ∨ head_dim = 128) ∧ (qk_quant_gran = 2 ∨ qk_quant_gran = 3) ∧
  (output.dtype = DType.float16 ∨ output.dtype = DType.bfloat16)

instance (head_dim qk_quant_gran : Nat) (output : TensorMeta) :
    Decidable (dispatchOk head_dim qk_quant_gran output) := by
  unfold dispatchOk
  infer_instance

/-- The `CHECK_SHAPE` calls on the scale arrays inside the dispatch body. -/
def scaleShapeChecksOk (tensor_layout qk_quant_gran : Nat)
    (query key query_scale key_scale : TensorMeta) : Prop :=
  if qk_quant_gran = 2 then
    query_scale.sizes = [sizeAt query 0, hostNumQoHeads tensor_layout query,
      div_ceil (hostQoLen tensor_layout query) CTA_Q * 4] ∧
    key_scale.sizes = [sizeAt query 0, hostNumKvHeads tensor_layout key,
      div_ceil (hostKvLen tensor_layout key) CTA_K]
  else
    query_scale.sizes = [sizeAt query 0, hostNumQoHeads tensor_layout query,
      div_ceil (hostQoLen tensor_layout query) CTA_Q * 4 * 8] ∧
    key_scale.sizes = [sizeAt query 0, hostNumKvHeads tensor_layout key,
      div_ceil (hostKvLen tensor_layout key) CTA_K * 4]

instance (tensor_layout qk_quant_gran : Nat) (query key query_scale key_scale : TensorMeta) :
    Decidable (scaleShapeChecksOk tensor_layout qk_quant_gran query key query_scale key_scale) := by
  unfold scaleShapeChecksOk
  infer_instance

/-- The lse tensor allocated just after the divisibility check: shape
`(batch_size, num_qo_heads, qo_len)` when `return_lse` is nonzero, the empty
placeholder `torch::empty({0})` otherwise. -/
def hostLseShape (return_lse : Bool) (tensor_layout : Nat) (query : TensorMeta) : List Nat :=
  if return_lse
  then [sizeAt query 0, hostNumQoHeads tensor_layout query, hostQoLen tensor_layout query]
  else [0]

/-- The launch a successful call performs:
`grid(div_ceil(qo_len, CTA_Q), num_qo_heads, batch_size)` plus the returned lse shape. -/
def hostLaunch (return_lse : Bool) (tensor_layout : Nat) (query : TensorMeta) : Launch where
  gridX := div_ceil (hostQoLen tensor_layout query) CTA_Q
  gridY := hostNumQoHeads tensor_layout query
  gridZ := sizeAt query 0
  lseShape := hostLseShape return_lse tensor_layout query

/-- Host entry point `qk_int8_sv_f8_accum_f32_attn_inst_buf` as the validation sequence
it runs before any device work, in source order, ending in the error it raises or the
launch it performs. -/
def attnInstBuf (query key value output query_scale key_scale : TensorMeta)
    (tensor_layout qk_quant_gran : Nat) (return_lse : Bool) :
    Except HostError Launch :=
  if ¬ basicChecksOk query key value output query_scale key_scale then .error .checkFailed
  else if ¬ shapeChecksOk tensor_layout query key output then .error .checkFailed
  else if hostNumQoHeads tensor_layout query % hostNumKvHeads tensor_layout key ≠ 0 then
    .error (.headsNotDivisible (hostNumQoHeads tensor_layout query)
      (hostNumKvHeads tensor_layout key))
  else if ¬ dispatchOk (sizeAt query 3) qk_quant_gran output then .error .unsupported
  else if ¬ scaleShapeChecksOk tensor_layout qk_quant_gran query key query_scale key_scale
  then .error .checkFailed
  else .ok (hostLaunch return_lse tensor_layout query)

/-- Host entry point `qk_int8_sv_f8_accum_f32_fuse_v_scale_attn_inst_buf`: the same
sequence with the additional `value_scale` checks (CUDA / contiguous / float32 / 3-D at
the prologue, shape `(batch_size, num_kv_heads, head_dim)` inside the dispatch body). -/
def fuseVScaleAttnInstBuf
    (query key value output query_scale key_scale value_scale : TensorMeta)
    (tensor_layout qk_quant_gran : Nat) (return_lse : Bool) :
    Except HostError Launch :=
  if ¬ (basicChecksOk query key value output query_scale key_scale &&
        value_scale.isCuda && value_scale.contiguous &&
        decide (value_scale.dtype = DType.float32) &&
        decide (value_scale.sizes.length = 3)) then .error .checkFailed
  else if ¬ shapeChecksOk tensor_layout query key output then .error .checkFailed
  else if hostNumQoHeads tensor_layout query % hostNumKvHeads tensor_layout key ≠ 0 then
    .error (.headsNotDivisible (hostNumQoHeads tensor_layout query)
      (hostNumKvHeads tensor_layout key))
  else if ¬ dispatchOk (sizeAt query 3) qk_quant_gran output then .error .unsupported
  else if ¬ scaleShapeChecksOk tensor_layout qk_quant_gran query key query_scale key_scale
  then .error .checkFailed
  else if ¬ (value_scale.sizes =
      [sizeAt query 0, hostNumKvHeads tensor_layout key, sizeAt query 3]) then
    .error .checkFailed
  else .ok (hostLaunch return_lse tensor_layout query)

/-- C9: in both entry points, whenever `num_qo_heads` is not an exact multiple of
`num_kv_heads` the call ends in an error and no launch happens; and whenever the
multiple holds, neither entry point ever raises the heads-divisibility error. -/
theorem c9_heads_divisibility
    (query key value output query_scale key_scale value_scale : TensorMeta)
    (tensor_layout qk_quant_gran : Nat) (return_lse : Bool) :
    (hostNumQoHeads tensor_layout query % hostNumKvHeads tensor_layout key ≠ 0 →
      (∃ e, attnInstBuf query key value output query_scale key_scale
        tensor_layout qk_quant_gran return_lse = .error e) ∧
      (∃ e, fuseVScaleAttnInstBuf query key value output query_scale key_scale
        value_scale tensor_layout qk_quant_gran return_lse = .error e)) ∧
    (hostNumQoHeads tensor_layout query % hostNumKvHeads tensor_layout key = 0 →
      (∀ a b, attnInstBuf query key value output query_scale key_scale
        tensor_layout qk_quant_gran return_lse ≠ .error (.headsNotDivisible a b)) ∧
      (∀ a b, fuseVScaleAttnInstBuf query key value output query_scale key_scale
        value_scale tensor_layout qk_quant_gran return_lse ≠
          .error (.headsNotDivisible a b))) := by
  constructor
  · intro hnd
    constructor
    · unfold attnInstBuf
      split_ifs <;> exact ⟨_, rfl⟩
    · unfold fuseVScaleAttnInstBuf
      split_ifs <;> exact ⟨_, rfl⟩
  · intro hd
    constructor
    · intro a b
      unfold attnInstBuf
      split_ifs <;> simp_all
    · intro a b
      unfold fuseVScaleAttnInstBuf
      split_ifs <;> simp_all

/-- Witness for C9: layout 0 with 3 query heads over 2 kv heads raises an error, and
with 4 query heads over 2 kv heads no heads-divisibility error is raised. -/
theorem c9_heads_divisibility_witness :
    (hostNumQoHeads 0 ⟨true, .int8, [1, 8, 3, 64], true, true⟩ %
        hostNumKvHeads 0 ⟨true, .int8, [8, 8, 2, 64], true, true⟩ ≠ 0) ∧
    (∃ e, attnInstBuf ⟨true, .int8, [1, 8, 3, 64], true, true⟩
      ⟨true, .int8, [8, 8, 2, 64], true, true⟩
      ⟨true, .float8e4m3, [1, 64, 2, 128], true, true⟩
      ⟨true, .float16, [1, 8, 3, 64], true, true⟩
      ⟨true, .float32, [1, 3, 4], true, true⟩
      ⟨true, .float32, [1, 2, 1], true, true⟩ 0 2 false = .error e) ∧
    (hostNumQoHeads 0 ⟨true, .int8, [1, 8, 4, 64], true, true⟩ %
        hostNumKvHeads 0 ⟨true, .int8, [1, 8, 2, 64], true, true⟩ = 0) ∧
    (∀ a b, attnInstBuf ⟨true, .int8, [1, 8, 4, 64], true, true⟩
      ⟨true, .int8, [1, 8, 2, 64], true, true⟩
      ⟨true, .float8e4m3, [1, 64, 2, 128], true, true⟩
      ⟨true, .float16, [1, 8, 4, 64], true, true⟩
      ⟨true, .float32, [1, 4, 4], true, true⟩
      ⟨true, .float32, [1, 2, 1], true, true⟩ 0 2 false ≠
        .error (.headsNotDivisible a b)) := by
  refine ⟨by decide, ?_, by decide, ?_⟩
  · exact ((c9_heads_divisibility ⟨true, .int8, [1, 8, 3, 64], true, true⟩
      ⟨true, .int8, [8, 8, 2, 64], true, true⟩
      ⟨true, .float8e4m3, [1, 64, 2, 128], true, true⟩
      ⟨true, .float16, [1, 8, 3, 64], true, true⟩
      ⟨true, .float32, [1, 3, 4], true, true⟩
      ⟨true, .float32, [1, 2, 1], true, true⟩
      ⟨true, .float32, [1, 2, 64], true, true⟩ 0 2 false).1 (by decide)).1
  · exact ((c9_heads_divisibility ⟨true, .int8, [1, 8, 4, 64], true, true⟩
      ⟨true, .int8, [1, 8, 2, 64], true, true⟩
      ⟨true, .float8e4m3, [1, 64, 2, 128], true, true⟩
      ⟨true, .float16, [1, 8, 4, 64], true, true⟩
      ⟨true, .float32, [1, 4, 4], true, true⟩
      ⟨true, .float32, [1, 2, 1], true, true⟩
      ⟨true, .float32, [1, 2, 64], true, true⟩ 0 2 false).2 (by decide)).1

/-! ### Log-sum-exp write-back (claim C6) -/

/-- Thread-local query row owning the register pair `(m[0][j], d[0][j])` of thread
`(warp, lane)`: within-tile row `warp * 16 + lane / 4 + 8 * j`, read off the kernel's
own `q_idx` formula for the score elements that feed that pair. -/
def rowOfState (warp lane j : Nat) : Nat := warp * 16 + lane / 4 + 8 * j

/-- One thread's lse write (compiled only under the `return_lse` specialization): when
`lane_id % 4 < 2` and `lse_idx < qo_len`, the float at flat index
`batch_id * (qo_len * num_qo_heads) + head_id * qo_len + lse_idx` becomes
`log2(d[fq][k]) + m[fq][k]` with `fq = (lane_id % 4) / 2` and `k = (lane_id % 4) % 2`;
the base-2 logarithm `ptx_log2` (`math.cuh`, not under `src/`) is the parameter
`log2`. -/
def lseWrite (log2 : ℚ → ℚ) (returnLse : Bool)
    (batch_id head_id qo_len num_qo_heads bx warp lane : Nat)
    (m d : Nat → Nat → ℚ) (pre : Nat → ℚ) : Nat → ℚ := fun i =>
  if returnLse ∧ lseIdx bx warp lane < qo_len ∧ lane % 4 < 2 ∧
      i = batch_id * (qo_len * num_qo_heads) + head_id * qo_len + lseIdx bx warp lane
  then log2 (d (lane % 4 / 2) (lane % 4 % 2)) + m (lane % 4 / 2) (lane % 4 % 2)
  else pre i

/-- C6: with `return_lse` on, both entry points return an lse tensor of shape
`(batch_size, num_qo_heads, qo_len)` (and the empty `[0]` placeholder otherwise); a
thread writing the entry of row `lse_idx` stores `log2(d) + m` of exactly the register
pair owning that row, each of the 64 tile rows is covered by exactly one thread, the
state-to-row association agrees with the kernel's own `q_idx` score layout, and with
`return_lse` off the kernel writes no lse values at all. -/
theorem c6_lse (log2 : ℚ → ℚ)
    (query key value output query_scale key_scale value_scale : TensorMeta)
    (tensor_layout qk_quant_gran : Nat) (return_lse : Bool)
    (batch_id head_id qo_len num_qo_heads bx warp lane : Nat)
    (m d : Nat → Nat → ℚ) (pre : Nat → ℚ) :
    (∀ l, attnInstBuf query key value output query_scale key_scale
        tensor_layout qk_quant_gran return_lse = .ok l →
      l.lseShape = hostLseShape return_lse tensor_layout query) ∧
    (∀ l, fuseVScaleAttnInstBuf query key value output query_scale key_scale value_scale
        tensor_layout qk_quant_gran return_lse = .ok l →
      l.lseShape = hostLseShape return_lse tensor_layout query) ∧
    hostLseShape true tensor_layout query =
      [sizeAt query 0, hostNumQoHeads tensor_layout query, hostQoLen tensor_layout query] ∧
    hostLseShape false tensor_layout query = [0] ∧
    (∀ i, lseWrite log2 false batch_id head_id qo_len num_qo_heads bx warp lane m d pre i
      = pre i) ∧
    (lane % 4 < 2 → lseIdx bx warp lane < qo_len →
      lseWrite log2 true batch_id head_id qo_len num_qo_heads bx warp lane m d pre
          (batch_id * (qo_len * num_qo_heads) + head_id * qo_len + lseIdx bx warp lane) =
        log2 (d 0 (lane % 4)) + m 0 (lane % 4) ∧
      lseIdx bx warp lane = bx * CTA_Q + rowOfState warp lane (lane % 4)) ∧
    (∀ kk, maskQIdx bx warp lane 0 kk = bx * CTA_Q + rowOfState warp lane (elemRow kk)) ∧
    (∀ off < 64, ∃ w < 4, ∃ l < 32, l % 4 < 2 ∧ lseIdx 0 w l = off) ∧
    (∀ w < 4, ∀ l < 32, ∀ w' < 4, ∀ l' < 32, l % 4 < 2 → l' % 4 < 2 →
      lseIdx 0 w l = lseIdx 0 w' l' → w = w' ∧ l = l') := by
  refine ⟨?_, ?_, rfl, rfl, ?_, ?_, ?_, by decide, ?_⟩
  · intro l h
    unfold attnInstBuf at h
    split_ifs at h
    simp only [Except.ok.injEq] at h
    rw [← h]
    rfl
  · intro l h
    unfold fuseVScaleAttnInstBuf at h
    split_ifs at h
    simp only [Except.ok.injEq] at h
    rw [← h]
    rfl
  · intro i
    unfold lseWrite
    simp
  · intro h2 h1
    constructor
    · unfold lseWrite
      rw [if_pos ⟨rfl, h1, h2, rfl⟩]
      have e1 : lane % 4 / 2 = 0 := by omega
      have e2 : lane % 4 % 2 = lane % 4 := by omega
      rw [e1, e2]
    · unfold lseIdx rowOfState CTA_Q
      omega
  · intro kk
    unfold maskQIdx qIdxLaneBase rowOfState elemRow CTA_Q
    omega
  · intro w hw l hl w' hw' l' hl' h2 h2' heq
    unfold lseIdx CTA_Q at heq
    constructor <;> omega

/-- Witness for C6 at thread `(warp, lane) = (1, 5)` (`lane % 4 = 1 < 2`), `bx = 0`,
`qo_len = 64`. -/
theorem c6_lse_witness :
    (5 : Nat) % 4 < 2 ∧ lseIdx 0 1 5 < 64 ∧
    (lseWrite (fun x => x) true 0 0 64 1 0 1 5 (fun _ _ => 7) (fun _ _ => 9)
        (fun _ => 0) (0 * (64 * 1) + 0 * 64 + lseIdx 0 1 5) =
      (fun x => x) ((fun _ _ => (9 : ℚ)) 0 (5 % 4)) + (fun _ _ => (7 : ℚ)) 0 (5 % 4) ∧
      lseIdx 0 1 5 = 0 * CTA_Q + rowOfState 1 5 (5 % 4)) := by
  refine ⟨by decide, by decide, ?_⟩
  exact (c6_lse (fun x => x) ⟨true, .int8, [], true, true⟩ ⟨true, .int8, [], true, true⟩
    ⟨true, .int8, [], true, true⟩ ⟨true, .int8, [], true, true⟩
    ⟨true, .int8, [], true, true⟩ ⟨true, .int8, [], true, true⟩
    ⟨true, .int8, [], true, true⟩ 0 2 true 0 0 64 1 0 1 5 (fun _ _ => 7) (fun _ _ => 9)
    (fun _ => 0)).2.2.2.2.2.1 (by decide) (by decide)

end SageAttn
